import Mathlib

/-
Verification of the neural-condense-subnet fragment:
the TextCompressProtocol message contract (neural_condense_core/protocol.py)
and the synthetic-challenge benchmark harness (tests/test_synthetic.py),
shallowly embedded in Lean 4.

Modelling conventions:
- Python dicts with string keys are modelled as association lists of
  (String, Value) pairs, so that claims about the presence or absence of
  keys are directly expressible.
- Python floats that the code only stores and copies (never computes with)
  are modelled as exact rationals.
- A Python expression that can raise is modelled as an Option, with none
  standing for the raised exception.
- External collaborators (the ChallengeGenerator, the tokenizer, the
  wall clock) are oracle parameters of the embedded harness.
-/

namespace NCS

/-- A value stored in a string-keyed mapping of the protocol layer:
either a text field or the compressed-token matrix. -/
inductive Value where
  | str (s : String)
  | tokens (t : List (List Rat))
  deriving DecidableEq

/-- The message object of protocol.py: fields context, compressed_tokens
and expected_completion, each defaulting to empty. -/
structure TextCompressProtocol where
  context : String := ""
  compressed_tokens : List (List Rat) := []
  expected_completion : String := ""
  deriving DecidableEq

/-- get_miner_payload of protocol.py: builds the mapping holding only the
context field. The source method only reads self, so the embedded version
is a pure function of the message. -/
def get_miner_payload (m : TextCompressProtocol) : List (String × Value) :=
  [("context", Value.str m.context)]

/-- hide_ground_truth of protocol.py: sets expected_completion to the
empty string. The in-place mutation is embedded as returning the updated
message. -/
def hide_ground_truth (m : TextCompressProtocol) : TextCompressProtocol :=
  { m with expected_completion := "" }

/-- deserialize of protocol.py: the wire form, a mapping holding the three
fields context, compressed_tokens and expected_completion. -/
def deserialize (m : TextCompressProtocol) : List (String × Value) :=
  [("context", Value.str m.context),
   ("compressed_tokens", Value.tokens m.compressed_tokens),
   ("expected_completion", Value.str m.expected_completion)]

/-- The keys of a string-keyed mapping. -/
def keys (d : List (String × Value)) : List String :=
  d.map Prod.fst

def contextKey : String := "context"

def compressedTokensKey : String := "compressed_tokens"

def expectedCompletionKey : String := "expected_completion"

/-- Modelled from the spec: rebuilding a message from its wire form, the
field-by-field constructor that the transport framework (the Synapse base
class, outside this repository) applies to the three documented keys.
Absent or ill-typed keys yield none. -/
def fromWireForm (d : List (String × Value)) : Option TextCompressProtocol :=
  match List.lookup contextKey d, List.lookup compressedTokensKey d,
      List.lookup expectedCompletionKey d with
  | some (Value.str c), some (Value.tokens t), some (Value.str e) =>
      some { context := c, compressed_tokens := t, expected_completion := e }
  | _, _, _ => none

/-- C1: for every message, get_miner_payload returns exactly the mapping
holding the context field; the keys expected_completion and
compressed_tokens are absent whatever the fields hold, and the message is
not modified (the embedded function only reads the message). -/
theorem c1_miner_payload_only_context (m : TextCompressProtocol) :
    get_miner_payload m = [("context", Value.str m.context)] ∧
    List.lookup expectedCompletionKey (get_miner_payload m) = none ∧
    List.lookup compressedTokensKey (get_miner_payload m) = none ∧
    expectedCompletionKey ∉ keys (get_miner_payload m) ∧
    compressedTokensKey ∉ keys (get_miner_payload m) := by
  refine ⟨rfl, rfl, rfl, ?_, ?_⟩ <;>
    simp [keys, get_miner_payload, expectedCompletionKey, compressedTokensKey,
      contextKey]

/-- C2: deserialize is total and returns exactly the three documented keys
with the field values of the message, compressed_tokens reproduced exactly;
rebuilding a message from the wire form recovers the message, so
serializing again yields an identical structure. -/
theorem c2_wire_form_round_trip (m : TextCompressProtocol) :
    deserialize m =
      [("context", Value.str m.context),
       ("compressed_tokens", Value.tokens m.compressed_tokens),
       ("expected_completion", Value.str m.expected_completion)] ∧
    keys (deserialize m) = [contextKey, compressedTokensKey, expectedCompletionKey] ∧
    fromWireForm (deserialize m) = some m ∧
    (fromWireForm (deserialize m)).map deserialize = some (deserialize m) := by
  refine ⟨rfl, rfl, rfl, rfl⟩

/-- C7: hide_ground_truth empties expected_completion, is idempotent and
has no error condition (it is a total function). -/
theorem c7_hide_ground_truth_idempotent (m : TextCompressProtocol) :
    (hide_ground_truth m).expected_completion = "" ∧
    hide_ground_truth (hide_ground_truth m) = hide_ground_truth m := by
  exact ⟨rfl, rfl⟩

/-- C8: hide_ground_truth modifies only expected_completion; context and
compressed_tokens are unchanged. -/
theorem c8_hide_ground_truth_frame (m : TextCompressProtocol) :
    (hide_ground_truth m).context = m.context ∧
    (hide_ground_truth m).compressed_tokens = m.compressed_tokens := by
  exact ⟨rfl, rfl⟩

/-
Benchmark harness of tests/test_synthetic.py.

The external collaborators are oracle parameters:
- gen i task: outcome of the asynchronous generate_challenge call at
  iteration i for the given task (genFail models a raised exception);
- encode: the tokenizer selected for the model identifier;
- elapsed i task: the wall-clock duration of a successful generation call
  at iteration i for the given task.
-/

/-- The task_data mapping inside a generated validator payload. The
formatted_context entry is an Option: none models the key being absent,
so that indexing it raises a KeyError (extraction failure). -/
structure TaskData where
  formatted_context : Option String
  deriving DecidableEq

/-- The validator_payload of a generated protocol, the data field of a
benchmark item. -/
structure ValidatorPayload where
  task_data : TaskData
  deriving DecidableEq

/-- Outcome of one generate_challenge call: genFail models the call
raising, ok carries the validator payload of the generated protocol. -/
inductive GenResult where
  | genFail
  | ok (payload : ValidatorPayload)
  deriving DecidableEq

/-- One record of the dataset_items collection: the dict built at each
successful iteration, with fields task, id, data, model_id and
max_characters. -/
structure Item where
  task : String
  id : Nat
  data : ValidatorPayload
  model_id : String
  max_characters : Nat
  deriving DecidableEq

/-- The cumulative state of the benchmark loop: per-task time totals, the
error counter, the dataset_items collection and the two sample lists. -/
structure BenchState where
  time_logs : List (String × Rat)
  error_count : Nat
  dataset_items : List Item
  context_lengths : List Nat
  token_counts : List Nat
  deriving DecidableEq

/-- The state before the loop: time_logs maps every task to 0, all the
counters and collections are empty. -/
def initState (tasks : List String) : BenchState :=
  { time_logs := tasks.map fun t => (t, 0)
    error_count := 0
    dataset_items := []
    context_lengths := []
    token_counts := [] }

/-- The dict update time_logs[task] += d. -/
def addTime (logs : List (String × Rat)) (task : String) (d : Rat) :
    List (String × Rat) :=
  logs.map fun p => if p.1 = task then (p.1, p.2 + d) else p

/-- One attempt of the loop body (the try block of test_synthetic.py).
The statement order follows the source: on generation failure only the
error counter moves; on generation success the elapsed time is added to
time_logs first, then formatted_context is extracted (a missing key
raises, landing in the except clause after the time was already added),
then the two samples and the item are appended. -/
def runAttempt (gen : Nat → String → GenResult) (encode : String → List Nat)
    (model_name : String) (max_characters : Nat)
    (elapsed : Nat → String → Rat)
    (s : BenchState) (i : Nat) (task : String) : BenchState :=
  match gen i task with
  | GenResult.genFail => { s with error_count := s.error_count + 1 }
  | GenResult.ok payload =>
    let item : Item :=
      { task := task, id := i, data := payload, model_id := model_name
        max_characters := max_characters }
    let s1 : BenchState :=
      { s with time_logs := addTime s.time_logs task (elapsed i task) }
    match payload.task_data.formatted_context with
    | none => { s1 with error_count := s1.error_count + 1 }
    | some fc =>
      { s1 with
        context_lengths := s1.context_lengths ++ [fc.length]
        token_counts := s1.token_counts ++ [(encode fc).length]
        dataset_items := s1.dataset_items ++ [item] }

/-- The nested loop of the harness: for i in range(n_iterations), for task
in tasks, run one attempt. -/
def runLoop (gen : Nat → String → GenResult) (encode : String → List Nat)
    (model_name : String) (max_characters : Nat)
    (elapsed : Nat → String → Rat)
    (n_iterations : Nat) (tasks : List String) : BenchState :=
  (List.range n_iterations).foldl
    (fun s i => tasks.foldl
      (fun s task => runAttempt gen encode model_name max_characters elapsed s i task) s)
    (initState tasks)

/-- Python division: raises ZeroDivisionError (none) when the divisor is
zero. -/
def pyDiv (a b : Rat) : Option Rat :=
  if b = 0 then none else some (a / b)

/-- Mean of a sample, as numpy mean: NaN on an empty array, modelled as
none. -/
def npMean (xs : List Rat) : Option Rat :=
  if xs.isEmpty then none else some (xs.sum / (xs.length : Rat))

/-- Square of the numpy population std of a sample: the mean of the
squared deviations from the mean. The std itself is the nonnegative
square root of this value, irrational in general; the embedding carries
the square, which determines it, so the summary stays rational. NaN on an
empty array is modelled as none. -/
def npStdSq (xs : List Rat) : Option Rat :=
  match npMean xs with
  | none => none
  | some m => some (((xs.map fun x => (x - m) ^ 2).sum) / (xs.length : Rat))

/-- The dict comprehension avg_time_logs: divides every per-task total by
n_iterations, raising (none) on a zero divisor. -/
def avgTimeLogs : Nat → List (String × Rat) → Option (List (String × Rat))
  | _, [] => some []
  | n, p :: rest =>
    match pyDiv p.2 (n : Rat), avgTimeLogs n rest with
    | some q, some l => some ((p.1, q) :: l)
    | _, _ => none

/-- The summary dict returned by benchmark_challenger, with exactly the
seven keys of the source. The two std fields carry the square of the
numpy std (see npStdSq). -/
structure Summary where
  error_count : Nat
  error_rate : Rat
  avg_time_per_task : List (String × Rat)
  context_length_mean : Option Rat
  context_length_std : Option Rat
  token_count_mean : Option Rat
  token_count_std : Option Rat
  deriving DecidableEq

/-- The post-loop computation of the harness: avg_time_logs first, then
error_rate over total_iterations = n_iterations * len(tasks), then the
sample statistics. A division by zero raises, giving none. -/
def summarize (n_iterations : Nat) (tasks : List String) (s : BenchState) :
    Option Summary := do
  let avg ← avgTimeLogs n_iterations s.time_logs
  let er ← pyDiv (s.error_count : Rat) ((n_iterations * tasks.length : Nat) : Rat)
  pure
    { error_count := s.error_count
      error_rate := er
      avg_time_per_task := avg
      context_length_mean := npMean (s.context_lengths.map fun k => (k : Rat))
      context_length_std := npStdSq (s.context_lengths.map fun k => (k : Rat))
      token_count_mean := npMean (s.token_counts.map fun k => (k : Rat))
      token_count_std := npStdSq (s.token_counts.map fun k => (k : Rat)) }

/-- benchmark_challenger: run the loop, then the summary computations.
The task list is a parameter so that runs over any task set can be
stated; the source instantiates it with the singleton list tasks. -/
def benchmark_challenger (gen : Nat → String → GenResult)
    (encode : String → List Nat) (model_name : String) (max_characters : Nat)
    (elapsed : Nat → String → Rat)
    (n_iterations : Nat) (tasks : List String) : Option Summary :=
  summarize n_iterations tasks
    (runLoop gen encode model_name max_characters elapsed n_iterations tasks)

/-- The task list hard-coded in test_synthetic.py (the other three task
names are commented out in the source). -/
def tasks : List String := ["question_answering"]

/-- Whether the attempt at iteration i for a task lands in the except
clause: the generation call raises, or the generated payload lacks
formatted_context. -/
def attemptFails (gen : Nat → String → GenResult) (i : Nat) (task : String) :
    Bool :=
  match gen i task with
  | GenResult.genFail => true
  | GenResult.ok payload => payload.task_data.formatted_context.isNone

/-- The item a fully successful attempt appends to dataset_items, none
when the attempt fails. -/
def successItem (gen : Nat → String → GenResult) (model_name : String)
    (max_characters : Nat) (i : Nat) (task : String) : Option Item :=
  match gen i task with
  | GenResult.genFail => none
  | GenResult.ok payload =>
    match payload.task_data.formatted_context with
    | none => none
    | some _ => some
        { task := task, id := i, data := payload, model_id := model_name
          max_characters := max_characters }

/-- The attempts of a run in request order: iteration-major, then task,
exactly the order of the nested loop. -/
def attempts (n_iterations : Nat) (tasks : List String) : List (Nat × String) :=
  (List.range n_iterations).flatMap fun i => tasks.map fun t => (i, t)

/-- Folding the per-attempt step over an explicit list of (iteration,
task) pairs; the nested loop is this fold over the request-order
enumeration. -/
def stepFold (gen : Nat → String → GenResult) (encode : String → List Nat)
    (model_name : String) (max_characters : Nat)
    (elapsed : Nat → String → Rat)
    (l : List (Nat × String)) (s : BenchState) : BenchState :=
  l.foldl
    (fun s p => runAttempt gen encode model_name max_characters elapsed s p.1 p.2) s

lemma foldl_flatMap {α β γ : Type} (f : α → List β) (g : γ → β → γ) :
    ∀ (L : List α) (c : γ),
      (L.flatMap f).foldl g c = L.foldl (fun c a => (f a).foldl g c) c := by
  intro L
  induction L with
  | nil => intro c; rfl
  | cons a rest ih => intro c; simp [List.flatMap_cons, List.foldl_append, ih]

lemma runLoop_eq_stepFold (gen : Nat → String → GenResult)
    (encode : String → List Nat) (model_name : String) (max_characters : Nat)
    (elapsed : Nat → String → Rat) (n : Nat) (ts : List String) :
    runLoop gen encode model_name max_characters elapsed n ts =
      stepFold gen encode model_name max_characters elapsed (attempts n ts)
        (initState ts) := by
  simp [runLoop, stepFold, attempts, foldl_flatMap, List.foldl_map]

lemma addTime_keys (logs : List (String × Rat)) (task : String) (d : Rat) :
    (addTime logs task d).map Prod.fst = logs.map Prod.fst := by
  induction logs with
  | nil => rfl
  | cons p rest ih =>
    simp only [addTime, List.map_cons] at ih ⊢
    by_cases h : p.1 = task <;> simp [h, ih]

lemma runAttempt_spec (gen : Nat → String → GenResult)
    (encode : String → List Nat) (model_name : String) (max_characters : Nat)
    (elapsed : Nat → String → Rat) (s : BenchState) (i : Nat) (task : String) :
    (runAttempt gen encode model_name max_characters elapsed s i task).error_count
        = s.error_count + (if attemptFails gen i task then 1 else 0) ∧
    (runAttempt gen encode model_name max_characters elapsed s i task).dataset_items
        = s.dataset_items ++ (successItem gen model_name max_characters i task).toList ∧
    (runAttempt gen encode model_name max_characters elapsed s i task).time_logs.map Prod.fst
        = s.time_logs.map Prod.fst := by
  cases h : gen i task with
  | genFail => simp [runAttempt, attemptFails, successItem, h]
  | ok payload =>
    cases hf : payload.task_data.formatted_context <;>
      simp [runAttempt, attemptFails, successItem, h, hf, addTime_keys]

lemma stepFold_spec (gen : Nat → String → GenResult)
    (encode : String → List Nat) (model_name : String) (max_characters : Nat)
    (elapsed : Nat → String → Rat) (l : List (Nat × String)) :
    ∀ s : BenchState,
    (stepFold gen encode model_name max_characters elapsed l s).error_count
        = s.error_count + l.countP (fun p => attemptFails gen p.1 p.2) ∧
    (stepFold gen encode model_name max_characters elapsed l s).dataset_items
        = s.dataset_items
            ++ l.filterMap (fun p => successItem gen model_name max_characters p.1 p.2) ∧
    (stepFold gen encode model_name max_characters elapsed l s).time_logs.map Prod.fst
        = s.time_logs.map Prod.fst := by
  induction l with
  | nil => intro s; simp [stepFold]
  | cons p rest ih =>
    intro s
    obtain ⟨he, hi, ht⟩ := runAttempt_spec gen encode model_name max_characters
      elapsed s p.1 p.2
    obtain ⟨he2, hi2, ht2⟩ :=
      ih (runAttempt gen encode model_name max_characters elapsed s p.1 p.2)
    have hstep : stepFold gen encode model_name max_characters elapsed (p :: rest) s
        = stepFold gen encode model_name max_characters elapsed rest
            (runAttempt gen encode model_name max_characters elapsed s p.1 p.2) := rfl
    refine ⟨?_, ?_, ?_⟩
    · rw [hstep, he2, he, List.countP_cons]
      omega
    · rw [hstep, hi2, hi, List.append_assoc]
      cases hs : successItem gen model_name max_characters p.1 p.2 <;>
        simp [List.filterMap_cons, hs]
    · rw [hstep, ht2, ht]

lemma initState_keys (ts : List String) :
    (initState ts).time_logs.map Prod.fst = ts := by
  induction ts with
  | nil => rfl
  | cons t rest ih =>
    simp only [initState, List.map_cons] at ih ⊢
    simpa using ih

lemma runLoop_spec (gen : Nat → String → GenResult)
    (encode : String → List Nat) (model_name : String) (max_characters : Nat)
    (elapsed : Nat → String → Rat) (n : Nat) (ts : List String) :
    (runLoop gen encode model_name max_characters elapsed n ts).error_count
        = (attempts n ts).countP (fun p => attemptFails gen p.1 p.2) ∧
    (runLoop gen encode model_name max_characters elapsed n ts).dataset_items
        = (attempts n ts).filterMap
            (fun p => successItem gen model_name max_characters p.1 p.2) ∧
    (runLoop gen encode model_name max_characters elapsed n ts).time_logs.map Prod.fst
        = ts := by
  rw [runLoop_eq_stepFold]
  obtain ⟨he, hi, ht⟩ := stepFold_spec gen encode model_name max_characters
    elapsed (attempts n ts) (initState ts)
  refine ⟨?_, ?_, ?_⟩
  · rw [he]; simp [initState]
  · rw [hi]; simp [initState]
  · rw [ht, initState_keys]

lemma avgTimeLogs_pos (n : Nat) (hn : n ≠ 0) (logs : List (String × Rat)) :
    avgTimeLogs n logs = some (logs.map fun p => (p.1, p.2 / (n : Rat))) := by
  have hq : (n : Rat) ≠ 0 := Nat.cast_ne_zero.mpr hn
  induction logs with
  | nil => rfl
  | cons p rest ih => simp [avgTimeLogs, pyDiv, hq, ih]

lemma summarize_pos (n : Nat) (ts : List String) (s : BenchState)
    (hn : n ≠ 0) (ht : ts ≠ []) :
    summarize n ts s = some
      { error_count := s.error_count
        error_rate := (s.error_count : Rat) / ((n * ts.length : Nat) : Rat)
        avg_time_per_task := s.time_logs.map fun p => (p.1, p.2 / (n : Rat))
        context_length_mean := npMean (s.context_lengths.map fun k => (k : Rat))
        context_length_std := npStdSq (s.context_lengths.map fun k => (k : Rat))
        token_count_mean := npMean (s.token_counts.map fun k => (k : Rat))
        token_count_std := npStdSq (s.token_counts.map fun k => (k : Rat)) } := by
  have hlen : ts.length ≠ 0 := by
    intro h
    exact ht (List.length_eq_zero.mp h)
  have htot : ((n * ts.length : Nat) : Rat) ≠ 0 :=
    Nat.cast_ne_zero.mpr (Nat.mul_ne_zero hn hlen)
  simp [summarize, avgTimeLogs_pos n hn, pyDiv, htot, hn, ht]

lemma summarize_zero (ts : List String) (s : BenchState) :
    summarize 0 ts s = none := by
  cases hlogs : s.time_logs with
  | nil => simp [summarize, hlogs, avgTimeLogs, pyDiv]
  | cons p rest => simp [summarize, hlogs, avgTimeLogs, pyDiv]

lemma attempts_length (n : Nat) (ts : List String) :
    (attempts n ts).length = n * ts.length := by
  simp [attempts, List.length_flatMap, Function.comp]
  induction n with
  | zero => simp
  | succ m ih => simp [List.range_succ, ih, Nat.succ_mul]

lemma success_add_fail (gen : Nat → String → GenResult) (model_name : String)
    (max_characters : Nat) (l : List (Nat × String)) :
    (l.filterMap (fun p => successItem gen model_name max_characters p.1 p.2)).length
        + l.countP (fun p => attemptFails gen p.1 p.2) = l.length := by
  induction l with
  | nil => rfl
  | cons p rest ih =>
    cases h : gen p.1 p.2 with
    | genFail =>
      have h1 : successItem gen model_name max_characters p.1 p.2 = none := by
        simp [successItem, h]
      have h2 : attemptFails gen p.1 p.2 = true := by
        simp [attemptFails, h]
      simp [List.filterMap_cons, List.countP_cons, h1, h2]
      omega
    | ok payload =>
      cases hf : payload.task_data.formatted_context with
      | none =>
        have h1 : successItem gen model_name max_characters p.1 p.2 = none := by
          simp [successItem, h, hf]
        have h2 : attemptFails gen p.1 p.2 = true := by
          simp [attemptFails, h, hf]
        simp [List.filterMap_cons, List.countP_cons, h1, h2]
        omega
      | some fc =>
        have h1 : successItem gen model_name max_characters p.1 p.2 = some
            { task := p.2, id := p.1, data := payload, model_id := model_name
              max_characters := max_characters } := by
          simp [successItem, h, hf]
        have h2 : attemptFails gen p.1 p.2 = false := by
          simp [attemptFails, h, hf]
        simp [List.filterMap_cons, List.countP_cons, h1, h2]
        omega

lemma map_div_keys (logs : List (String × Rat)) (n : Nat) :
    ((logs.map fun p => (p.1, p.2 / (n : Rat))).map Prod.fst) = logs.map Prod.fst := by
  induction logs with
  | nil => rfl
  | cons p rest ih => simp [ih]

/-- A concrete generator payload for witnesses: formatted_context present. -/
def okPayload : ValidatorPayload :=
  { task_data := { formatted_context := some ("abcdefghij") } }

/-- Witness generator: fails at iteration 1, succeeds elsewhere. -/
def genW : Nat → String → GenResult := fun i _ =>
  if i = 1 then GenResult.genFail else GenResult.ok okPayload

/-- Witness generator: every call raises. -/
def genFailAll : Nat → String → GenResult := fun _ _ => GenResult.genFail

/-- Witness generator: generation succeeds but the payload lacks
formatted_context, so extraction raises. -/
def genExtractFail : Nat → String → GenResult := fun _ _ =>
  GenResult.ok { task_data := { formatted_context := none } }

/-- Witness tokenizer: one token per character. -/
def encodeW : String → List Nat := fun s => List.replicate s.length 0

/-- Witness clock: every successful generation takes one second. -/
def elapsedW : Nat → String → Rat := fun _ _ => 1

/-- C3: with n_iterations = 0 the harness divides by zero in the
avg_time_logs comprehension (and in error_rate), so the run raises
ZeroDivisionError instead of returning a summary; the embedded result is
none for every task set and every choice of oracles. -/
theorem c3_zero_iterations_divide_by_zero (gen : Nat → String → GenResult)
    (encode : String → List Nat) (model_name : String) (max_characters : Nat)
    (elapsed : Nat → String → Rat) (ts : List String) :
    benchmark_challenger gen encode model_name max_characters elapsed 0 ts = none := by
  unfold benchmark_challenger
  exact summarize_zero ts _

/-- C4 counterexample: at an attempt where generation succeeds but the
payload lacks formatted_context (an extraction failure), the error
counter increments, yet the per-task time total has also changed — the
elapsed time was accumulated before the extraction raised, contradicting
the claim that the error counter is the only cumulative-state change. -/
theorem c4_counterexample :
    (runAttempt genExtractFail encodeW ("universal") 40000 elapsedW
        (initState tasks) 0 ("question_answering")).error_count
      = (initState tasks).error_count + 1 ∧
    (runAttempt genExtractFail encodeW ("universal") 40000 elapsedW
        (initState tasks) 0 ("question_answering")).time_logs
      ≠ (initState tasks).time_logs := by
  refine ⟨rfl, ?_⟩
  have hlog : (runAttempt genExtractFail encodeW ("universal") 40000 elapsedW
      (initState tasks) 0 ("question_answering")).time_logs
      = [(("question_answering" : String), (1 : Rat))] := by
    simp [runAttempt, genExtractFail, initState, tasks, addTime, elapsedW]
  rw [hlog]
  simp [initState, tasks]

/-- C4 amended: when the generation call itself fails, the only change is
the error-counter increment; when generation succeeds but extraction of
formatted_context fails, the elapsed time has already been added to the
per-task total before the error counter increments. In both failure
cases no sample is recorded, no item is appended, and the loop goes on. -/
theorem c4_failure_frame (gen : Nat → String → GenResult)
    (encode : String → List Nat) (model_name : String) (max_characters : Nat)
    (elapsed : Nat → String → Rat) (s : BenchState) (i : Nat) (task : String) :
    (gen i task = GenResult.genFail →
      runAttempt gen encode model_name max_characters elapsed s i task
        = { s with error_count := s.error_count + 1 }) ∧
    (∀ payload, gen i task = GenResult.ok payload →
      payload.task_data.formatted_context = none →
      runAttempt gen encode model_name max_characters elapsed s i task
        = { s with time_logs := addTime s.time_logs task (elapsed i task)
                   error_count := s.error_count + 1 }) := by
  constructor
  · intro h
    simp [runAttempt, h]
  · intro payload h hf
    simp [runAttempt, h, hf]

/-- Witness for the amended C4, at concrete oracles: one all-failing
generator and one extraction-failing generator. -/
theorem c4_failure_frame_witness :
    runAttempt genFailAll encodeW ("universal") 40000 elapsedW
        (initState tasks) 0 ("question_answering")
      = { initState tasks with error_count := (initState tasks).error_count + 1 } ∧
    runAttempt genExtractFail encodeW ("universal") 40000 elapsedW
        (initState tasks) 0 ("question_answering")
      = { initState tasks with
            time_logs := addTime (initState tasks).time_logs ("question_answering")
              (elapsedW 0 ("question_answering"))
            error_count := (initState tasks).error_count + 1 } := by
  refine ⟨?_, ?_⟩
  · exact (c4_failure_frame genFailAll encodeW ("universal") 40000 elapsedW
      (initState tasks) 0 ("question_answering")).1 rfl
  · exact (c4_failure_frame genExtractFail encodeW ("universal") 40000 elapsedW
      (initState tasks) 0 ("question_answering")).2
      { task_data := { formatted_context := none } } rfl rfl

/-- C5: when the per-attempt body fails exactly f times among the
n * len(tasks) attempts, the returned summary has error_count = f and
error_rate = f / (n * len(tasks)), exactly. -/
theorem c5_error_count_and_rate (gen : Nat → String → GenResult)
    (encode : String → List Nat) (model_name : String) (max_characters : Nat)
    (elapsed : Nat → String → Rat) (n : Nat) (ts : List String) (f : Nat)
    (hf : (attempts n ts).countP (fun p => attemptFails gen p.1 p.2) = f)
    (hn : 0 < n) (ht : ts ≠ []) :
    ∃ s, benchmark_challenger gen encode model_name max_characters elapsed n ts
        = some s ∧
      s.error_count = f ∧
      s.error_rate = (f : Rat) / ((n * ts.length : Nat) : Rat) := by
  obtain ⟨he, -, -⟩ := runLoop_spec gen encode model_name max_characters elapsed n ts
  refine ⟨_, summarize_pos n ts _ hn.ne' ht, ?_, ?_⟩
  · show (runLoop gen encode model_name max_characters elapsed n ts).error_count = f
    rw [he, hf]
  · show ((runLoop gen encode model_name max_characters elapsed n ts).error_count : Rat)
        / ((n * ts.length : Nat) : Rat) = (f : Rat) / ((n * ts.length : Nat) : Rat)
    rw [he, hf]

/-- Witness for C5: three iterations over the source task list with a
generator failing exactly at iteration 1 give error_count 1 and
error_rate 1/3. -/
theorem c5_error_count_and_rate_witness :
    ∃ s, benchmark_challenger genW encodeW ("universal") 40000 elapsedW 3 tasks
        = some s ∧
      s.error_count = 1 ∧
      s.error_rate = (1 : Rat) / ((3 * tasks.length : Nat) : Rat) := by
  exact c5_error_count_and_rate genW encodeW ("universal") 40000 elapsedW 3 tasks 1
    (by decide) (by decide) (by decide)

lemma attempts_tasks (n : Nat) :
    attempts n tasks
      = (List.range n).map (fun i => (i, ("question_answering" : String))) := by
  induction n with
  | zero => rfl
  | succ m ih =>
    simp only [attempts, tasks, List.map_cons, List.map_nil] at ih ⊢
    simp [List.range_succ, List.flatMap_append, ih]

/-- C6: the persisted collection (dataset_items, dumped to the JSON file
at the end of the run) is exactly the request-order enumeration of the
attempts filtered to the fully successful ones: one entry per successful
attempt, none for failures, each with id equal to its iteration index and
task equal to its task, and ids strictly increasing along the collection
(the source task list has a single task, so (task, iteration) order and
request order coincide). -/
theorem c6_persisted_items_order (gen : Nat → String → GenResult)
    (encode : String → List Nat) (model_name : String) (max_characters : Nat)
    (elapsed : Nat → String → Rat) (n : Nat) :
    (runLoop gen encode model_name max_characters elapsed n tasks).dataset_items
      = (attempts n tasks).filterMap
          (fun p => successItem gen model_name max_characters p.1 p.2) ∧
    (∀ i task item,
      successItem gen model_name max_characters i task = some item →
      item.id = i ∧ item.task = task) ∧
    ((runLoop gen encode model_name max_characters elapsed n tasks).dataset_items).Pairwise
      (fun a b => a.id < b.id) := by
  obtain ⟨-, hi, -⟩ := runLoop_spec gen encode model_name max_characters elapsed n tasks
  have hids : ∀ i task item,
      successItem gen model_name max_characters i task = some item →
      item.id = i ∧ item.task = task := by
    intro i task item h
    cases hg : gen i task with
    | genFail => simp [successItem, hg] at h
    | ok payload =>
      cases hfc : payload.task_data.formatted_context with
      | none => simp [successItem, hg, hfc] at h
      | some fc =>
        simp [successItem, hg, hfc] at h
        subst h
        exact ⟨rfl, rfl⟩
  refine ⟨hi, hids, ?_⟩
  rw [hi, attempts_tasks, List.filterMap_map, List.pairwise_filterMap]
  refine List.Pairwise.imp ?_ (List.pairwise_lt_range n)
  intro a b hab x hx y hy
  have hxa := (hids a ("question_answering") x (Option.mem_def.mp hx)).1
  have hyb := (hids b ("question_answering") y (Option.mem_def.mp hy)).1
  rw [hxa, hyb]
  exact hab

/-- C9: after a run with positive iteration count and a nonempty task
set, the harness returns a summary holding exactly the seven documented
fields, where avg_time_per_task is the per-task total of time_logs
divided by the iteration count, the keys of time_logs and of
avg_time_per_task are exactly the configured tasks, and the remaining
fields are the error statistics and the sample statistics of the run. -/
theorem c9_summary_fields (gen : Nat → String → GenResult)
    (encode : String → List Nat) (model_name : String) (max_characters : Nat)
    (elapsed : Nat → String → Rat) (n : Nat) (ts : List String)
    (hn : 0 < n) (ht : ts ≠ []) :
    ∃ s, benchmark_challenger gen encode model_name max_characters elapsed n ts
        = some s ∧
      s = { error_count :=
              (runLoop gen encode model_name max_characters elapsed n ts).error_count
            error_rate :=
              ((runLoop gen encode model_name max_characters elapsed n ts).error_count : Rat)
                / ((n * ts.length : Nat) : Rat)
            avg_time_per_task :=
              (runLoop gen encode model_name max_characters elapsed n ts).time_logs.map
                fun p => (p.1, p.2 / (n : Rat))
            context_length_mean :=
              npMean ((runLoop gen encode model_name max_characters elapsed n ts).context_lengths.map
                fun k => (k : Rat))
            context_length_std :=
              npStdSq ((runLoop gen encode model_name max_characters elapsed n ts).context_lengths.map
                fun k => (k : Rat))
            token_count_mean :=
              npMean ((runLoop gen encode model_name max_characters elapsed n ts).token_counts.map
                fun k => (k : Rat))
            token_count_std :=
              npStdSq ((runLoop gen encode model_name max_characters elapsed n ts).token_counts.map
                fun k => (k : Rat)) } ∧
      (runLoop gen encode model_name max_characters elapsed n ts).time_logs.map Prod.fst
        = ts ∧
      s.avg_time_per_task.map Prod.fst = ts := by
  obtain ⟨-, -, hk⟩ := runLoop_spec gen encode model_name max_characters elapsed n ts
  refine ⟨_, summarize_pos n ts _ hn.ne' ht, rfl, hk, ?_⟩
  show ((runLoop gen encode model_name max_characters elapsed n ts).time_logs.map
      fun p => (p.1, p.2 / (n : Rat))).map Prod.fst = ts
  rw [map_div_keys]
  exact hk

/-- Witness for C9: a concrete three-iteration run over the source task
list returns a summary whose avg_time_per_task keys are the tasks. -/
theorem c9_summary_fields_witness :
    ∃ s, benchmark_challenger genW encodeW ("universal") 40000 elapsedW 3 tasks
        = some s ∧
      s.avg_time_per_task.map Prod.fst = tasks := by
  obtain ⟨s, h1, -, -, h4⟩ := c9_summary_fields genW encodeW ("universal") 40000
    elapsedW 3 tasks (by decide) (by decide)
  exact ⟨s, h1, h4⟩

/-- C10: every (iteration, task) attempt either appends one item or
increments the error counter, never both and never neither, so the item
count plus the error count equals n_iterations * len(tasks). -/
theorem c10_items_plus_errors (gen : Nat → String → GenResult)
    (encode : String → List Nat) (model_name : String) (max_characters : Nat)
    (elapsed : Nat → String → Rat) (n : Nat) (ts : List String) :
    (runLoop gen encode model_name max_characters elapsed n ts).dataset_items.length
      + (runLoop gen encode model_name max_characters elapsed n ts).error_count
      = n * ts.length := by
  obtain ⟨he, hi, -⟩ := runLoop_spec gen encode model_name max_characters elapsed n ts
  rw [he, hi, success_add_fail, attempts_length]

end NCS
